import Mathlib

/-
Verification of the package-tracking record keeper.

The definitions below are a shallow embedding of the JavaScript source:

* `PackageDoc` / `RecipientDoc` embed the mongoose documents of
  `Package_details` (src/unnamed/part_010) and `Recipient`; a BSON field
  that may be absent from a document is an `Option`.
* The tracking-number allocator embeds the `pre('save')` hook of
  src/unnamed/part_010 lines 90-102.
* The route handlers of src/unnamed/part_003 (and, where a claim cites
  them, of src/Package_Track/Package_Tracking.js and
  src/Package_Track/recipientRoutes.js) become pure functions from the
  pre-request collection state and the request payload to a result that
  carries the response data and the post-request collection state.
* The document database is a `List` of documents; mongoose `findOne`
  is `List.find?`, `insertMany` is append, `deleteMany` is `filter`,
  `findOneAndUpdate` rewrites the first matching element.
-/

set_option autoImplicit false

namespace PackageTracking

/-- A stored package document (schema of src/unnamed/part_010).  An `Option`
field is `none` when the BSON document lacks the field (for `TrackingNumber`
this can happen after a full replace whose body omits it; for
`ID_proof.data` after the `$unset` issued by delete_ID_Proof).  The `data`
buffer is a byte list; an *empty* buffer is `some []`, which is distinct
from an absent field. -/
structure PackageDoc where
  TrackingNumber : Option Nat := none
  Status : String := "pending"
  SenderName : String := ""
  RecipientId : Nat := 0
  IDProofData : Option (List Nat) := none
  deriving Repr, DecidableEq

/-- A stored recipient document; `rid` is the MongoDB `_id` that
`Recipient.findById` resolves. -/
structure RecipientDoc where
  rid : Nat
  RecipientName : String := ""
  RecipientContact : Nat := 0
  deriving Repr, DecidableEq

/-- Sort key of `findOne().sort( TrackingNumber : -1 )`: in a MongoDB
descending sort a document missing the field sorts after every document
that has it, so an absent `TrackingNumber` compares below every present
value. -/
def tnKey (p : PackageDoc) : Nat :=
  match p.TrackingNumber with
  | none => 0
  | some n => n + 1

/-- The document returned by `findOne().sort( TrackingNumber : -1 ).exec()`
in the pre-save hook (src/unnamed/part_010 line 95): the document with the
largest `TrackingNumber`, or `none` on an empty collection. -/
def lastPackage : List PackageDoc → Option PackageDoc
  | [] => none
  | p :: ps =>
    match lastPackage ps with
    | none => some p
    | some q => if tnKey p < tnKey q then some q else some p

/-- The allocator `lastPackage ? lastPackage.TrackingNumber + 1 : 1` (src/unnamed/part_010
line 96, likewise src/unnamed/part_003 lines 511-512 and 578-579).  The
result is `none` exactly where JavaScript arithmetic would produce `NaN`,
namely when the sorted-first document itself lacks a `TrackingNumber`. -/
def nextTrackingNumber (s : List PackageDoc) : Option Nat :=
  match lastPackage s with
  | none => some 1
  | some q => q.TrackingNumber.map (· + 1)

/-- The maximum TrackingNumber present in the collection, 0 when none is
present.  This is the specification-side quantity the allocator is compared
against. -/
def maxTracking (s : List PackageDoc) : Nat :=
  (s.filterMap PackageDoc.TrackingNumber).foldr max 0

theorem lastPackage_eq_none {s : List PackageDoc} :
    lastPackage s = none ↔ s = [] := by
  cases s with
  | nil => simp [lastPackage]
  | cons p ps =>
    simp only [lastPackage]
    cases lastPackage ps with
    | none => simp
    | some q =>
      constructor
      · intro h
        by_cases hk : tnKey p < tnKey q <;> simp [hk] at h
      · intro h
        exact absurd h (List.cons_ne_nil p ps)

/-- On a collection where every document carries a TrackingNumber, the
allocator of the pre-save hook returns the maximum present number plus one
(and 1 on the empty collection, where `maxTracking` is 0). -/
theorem nextTrackingNumber_eq (s : List PackageDoc)
    (h : ∀ p ∈ s, (p.TrackingNumber).isSome = true) :
    nextTrackingNumber s = some (maxTracking s + 1) := by
  induction s with
  | nil => rfl
  | cons p ps ih =>
    have hp : (p.TrackingNumber).isSome = true := h p (List.mem_cons_self p ps)
    obtain ⟨a, ha⟩ := Option.isSome_iff_exists.mp hp
    have hps : ∀ q ∈ ps, (q.TrackingNumber).isSome = true :=
      fun q hq => h q (List.mem_cons_of_mem p hq)
    have hmax : maxTracking (p :: ps) = max a (maxTracking ps) := by
      simp [maxTracking, List.filterMap_cons, ha]
    cases hlp : lastPackage ps with
    | none =>
      have hnil : ps = [] := lastPackage_eq_none.mp hlp
      subst hnil
      simp [nextTrackingNumber, lastPackage, ha, maxTracking]
    | some q =>
      have hq := ih hps
      simp only [nextTrackingNumber, hlp] at hq
      obtain ⟨b, hb⟩ := Option.isSome_iff_exists.mp
        (show (q.TrackingNumber).isSome = true by
          cases hqt : q.TrackingNumber with
          | none => rw [hqt] at hq; simp [Option.map] at hq
          | some b => rfl)
      rw [hb] at hq
      simp only [Option.map_some'] at hq
      have hb' : b = maxTracking ps := by
        have := Option.some.inj hq
        omega
      simp only [nextTrackingNumber, lastPackage, hlp, hmax]
      have hkp : tnKey p = a + 1 := by simp [tnKey, ha]
      have hkq : tnKey q = maxTracking ps + 1 := by simp [tnKey, hb, hb']
      by_cases hlt : tnKey p < tnKey q
      · rw [if_pos hlt]
        rw [hkp, hkq] at hlt
        show Option.map (· + 1) q.TrackingNumber = some (max a (maxTracking ps) + 1)
        rw [hb, hb']
        simp only [Option.map_some']
        have : max a (maxTracking ps) = maxTracking ps := by omega
        rw [this]
      · rw [if_neg hlt]
        rw [hkp, hkq] at hlt
        show Option.map (· + 1) p.TrackingNumber = some (max a (maxTracking ps) + 1)
        rw [ha]
        simp only [Option.map_some']
        have : max a (maxTracking ps) = a := by omega
        rw [this]

/-- Result of `POST /packages/` (src/unnamed/part_003 lines 201-221):
either the 404 recipient-not-found response (collection untouched) or the
201 response carrying the saved document and the new collection state. -/
inductive CreateResult where
  | recipientNotFound (state : List PackageDoc)
  | created (savedPackage : PackageDoc) (state : List PackageDoc)
  deriving Repr, DecidableEq

/-- Route `POST /packages/`: after the `validatePackage` middleware, look up the
recipient by id (404 when absent), then `new Package(req.body).save()`.
The schema pre-save hook (src/unnamed/part_010 lines 90-102) assigns
`doc.TrackingNumber = nextTrackingNumber` to the new document,
unconditionally overwriting any client-supplied value. -/
def createPackage (recipients : List RecipientDoc) (s : List PackageDoc)
    (body : PackageDoc) : CreateResult :=
  match recipients.find? (fun r => r.rid == body.RecipientId) with
  | none => .recipientNotFound s
  | some _ =>
    let saved : PackageDoc := { body with TrackingNumber := nextTrackingNumber s }
    .created saved (s ++ [saved])

/-- C1: for every single-package creation against a collection state `s`
(in which, as every creation path guarantees, each stored document carries
a TrackingNumber), the created package's TrackingNumber equals one plus the
maximum TrackingNumber present in `s` before creation — which is 1 when `s`
is empty — and the number is computed by the pre-save allocation step from
`s` alone: the right-hand side does not mention `body`, so no
client-supplied value can influence it. -/
theorem create_assigns_max_plus_one
    (recipients : List RecipientDoc) (s : List PackageDoc) (body : PackageDoc)
    (p : PackageDoc) (s' : List PackageDoc)
    (hall : ∀ q ∈ s, (q.TrackingNumber).isSome = true)
    (hc : createPackage recipients s body = .created p s') :
    p.TrackingNumber = some (maxTracking s + 1) ∧
    (s = [] → p.TrackingNumber = some 1) ∧
    s' = s ++ [p] := by
  unfold createPackage at hc
  cases hf : recipients.find? (fun r => r.rid == body.RecipientId) with
  | none => rw [hf] at hc; exact absurd hc (by simp)
  | some r =>
    rw [hf] at hc
    simp only [CreateResult.created.injEq] at hc
    obtain ⟨hp, hs⟩ := hc
    have htn : p.TrackingNumber = nextTrackingNumber s := by
      rw [← hp]
    rw [nextTrackingNumber_eq s hall] at htn
    refine ⟨htn, ?_, ?_⟩
    · intro hnil
      subst hnil
      simpa [maxTracking] using htn
    · rw [← hs, hp]

/-- Concrete recipient collection used by witnesses. -/
def sampleRecipients : List RecipientDoc :=
  [{ rid := 7, RecipientName := "Jane Doe", RecipientContact := 1234567890 }]

/-- Concrete one-package collection state used by witnesses. -/
def sampleState : List PackageDoc :=
  [{ TrackingNumber := some 3, Status := "pending", SenderName := "Ann",
     RecipientId := 7 }]

/-- Concrete creation request body used by witnesses. -/
def sampleBody : PackageDoc :=
  { Status := "pending", SenderName := "John Smith", RecipientId := 7 }

/-- The document `createPackage` saves for `sampleBody` against
`sampleState`: the allocator yields 3 + 1 = 4. -/
def sampleSaved : PackageDoc :=
  { sampleBody with TrackingNumber := some 4 }

theorem create_assigns_max_plus_one_witness :
    sampleSaved.TrackingNumber = some (maxTracking sampleState + 1) ∧
    (sampleState = [] → sampleSaved.TrackingNumber = some 1) ∧
    sampleState ++ [sampleSaved] = sampleState ++ [sampleSaved] :=
  create_assigns_max_plus_one sampleRecipients sampleState sampleBody
    sampleSaved (sampleState ++ [sampleSaved]) (by decide) (by decide)

/-- The recipient-resolution loop of `POST /packages/add-many`
(src/unnamed/part_003 lines 503-508): 0-based index of the first package
whose `RecipientId` does not resolve via `Recipient.findById`, `none` when
every one resolves. -/
def firstBadRecipient (recipients : List RecipientDoc) :
    List PackageDoc → Option Nat
  | [] => none
  | p :: ps =>
    if (recipients.find? (fun r => r.rid == p.RecipientId)).isSome then
      (firstBadRecipient recipients ps).map (· + 1)
    else some 0

/-- The assignment loop `packages[i].TrackingNumber = nextTrackingNumber++`
(src/unnamed/part_003 lines 515-517).  A `none` start models the NaN corner
of the allocator, which `NaN++` propagates to every item. -/
def assignNumbers : Option Nat → List PackageDoc → List PackageDoc
  | _, [] => []
  | o, p :: ps => { p with TrackingNumber := o } :: assignNumbers (o.map (· + 1)) ps

/-- Result of `POST /packages/add-many`: the 404 response naming the
1-indexed first package whose recipient is missing (collection untouched),
or the 201 response with the inserted documents and the new state. -/
inductive AddManyResult where
  | recipientNotFound (failedIndex1 : Nat) (state : List PackageDoc)
  | ok (inserted : List PackageDoc) (state : List PackageDoc)
  deriving Repr, DecidableEq

/-- Route `POST /packages/add-many` (src/unnamed/part_003 lines 498-530): check
every item's recipient, 404 on the first failure; otherwise consult the
allocator once, assign consecutive numbers in array order, and
`insertMany` the batch. -/
def addManyPackages (recipients : List RecipientDoc) (s : List PackageDoc)
    (packages : List PackageDoc) : AddManyResult :=
  match firstBadRecipient recipients packages with
  | some i => .recipientNotFound (i + 1) s
  | none =>
    let assigned := assignNumbers (nextTrackingNumber s) packages
    .ok assigned (s ++ assigned)

/-- Result of `POST /recipients/add-many`
(src/Package_Track/recipientRoutes.js lines 349-361). -/
inductive RecipAddManyResult where
  | invalidInput (state : List RecipientDoc)
  | ok (inserted : List RecipientDoc) (state : List RecipientDoc)
  deriving Repr, DecidableEq

/-- Route `POST /recipients/add-many`: a 400 on an empty input array, otherwise a
plain `insertMany` with no cross-reference check. -/
def addManyRecipients (s : List RecipientDoc)
    (recipients : List RecipientDoc) : RecipAddManyResult :=
  if recipients.length == 0 then .invalidInput s
  else .ok recipients (s ++ recipients)

theorem firstBadRecipient_eq_none (recipients : List RecipientDoc)
    (packages : List PackageDoc)
    (h : ∀ p ∈ packages,
      (recipients.find? (fun r => r.rid == p.RecipientId)).isSome = true) :
    firstBadRecipient recipients packages = none := by
  induction packages with
  | nil => rfl
  | cons p ps ih =>
    have hp := h p (List.mem_cons_self p ps)
    have hps := ih (fun q hq => h q (List.mem_cons_of_mem p hq))
    simp [firstBadRecipient, hp, hps]

theorem assignNumbers_length (o : Option Nat) (ps : List PackageDoc) :
    (assignNumbers o ps).length = ps.length := by
  induction ps generalizing o with
  | nil => rfl
  | cons p ps ih => simp [assignNumbers, ih]

theorem assignNumbers_getElem (n : Nat) (ps : List PackageDoc) :
    ∀ i, (assignNumbers (some n) ps)[i]? =
      (ps[i]?).map (fun p : PackageDoc => { p with TrackingNumber := some (n + i) }) := by
  induction ps generalizing n with
  | nil => intro i; simp [assignNumbers]
  | cons p ps ih =>
    intro i
    cases i with
    | zero => simp [assignNumbers]
    | succ k =>
      have := ih (n + 1) k
      simp only [assignNumbers, Option.map_some', List.getElem?_cons_succ]
      rw [this]
      have harith : n + 1 + k = n + (k + 1) := by omega
      rw [harith]

/-- C2: for every add-many batch that passes the recipient check, against a
state whose documents all carry a TrackingNumber, the allocator value
`maxTracking s + 1` is obtained once and the N items are inserted with the
N consecutive numbers `start + i` in input-array order, each item otherwise
unchanged. -/
theorem addMany_assigns_consecutive
    (recipients : List RecipientDoc) (s : List PackageDoc)
    (packages : List PackageDoc)
    (hall : ∀ q ∈ s, (q.TrackingNumber).isSome = true)
    (hrec : ∀ p ∈ packages,
      (recipients.find? (fun r => r.rid == p.RecipientId)).isSome = true) :
    ∃ assigned,
      addManyPackages recipients s packages = .ok assigned (s ++ assigned) ∧
      assigned.length = packages.length ∧
      ∀ i, assigned[i]? = (packages[i]?).map
        (fun p : PackageDoc => { p with TrackingNumber := some (maxTracking s + 1 + i) }) := by
  refine ⟨assignNumbers (nextTrackingNumber s) packages, ?_, ?_, ?_⟩
  · unfold addManyPackages
    rw [firstBadRecipient_eq_none recipients packages hrec]
  · exact assignNumbers_length _ _
  · intro i
    rw [nextTrackingNumber_eq s hall]
    exact assignNumbers_getElem (maxTracking s + 1) packages i

/-- Concrete two-package batch used by witnesses. -/
def sampleBatch : List PackageDoc :=
  [{ Status := "pending", SenderName := "Alice", RecipientId := 7 },
   { Status := "in-transit", SenderName := "Bob", RecipientId := 7 }]

theorem addMany_assigns_consecutive_witness :
    ∃ assigned,
      addManyPackages sampleRecipients sampleState sampleBatch =
        .ok assigned (sampleState ++ assigned) ∧
      assigned.length = sampleBatch.length ∧
      ∀ i, assigned[i]? = (sampleBatch[i]?).map
        (fun p : PackageDoc => { p with
          TrackingNumber := some (maxTracking sampleState + 1 + i) }) :=
  addMany_assigns_consecutive sampleRecipients sampleState sampleBatch
    (by decide) (by decide)

theorem firstBadRecipient_eq_some (recipients : List RecipientDoc)
    (packages : List PackageDoc) :
    ∀ i p, packages[i]? = some p →
      (recipients.find? (fun r => r.rid == p.RecipientId)).isSome = false →
      (∀ j q, j < i → packages[j]? = some q →
        (recipients.find? (fun r => r.rid == q.RecipientId)).isSome = true) →
      firstBadRecipient recipients packages = some i := by
  induction packages with
  | nil => intro i p hp; simp at hp
  | cons hd tl ih =>
    intro i p hp hbad hgood
    cases i with
    | zero =>
      rw [List.getElem?_cons_zero] at hp
      obtain rfl := Option.some.inj hp
      simp [firstBadRecipient, hbad]
    | succ k =>
      have hhead := hgood 0 hd (Nat.succ_pos k) (by simp)
      rw [List.getElem?_cons_succ] at hp
      have htail := ih k p hp hbad
        (fun j q hjk hq =>
          hgood (j + 1) q (Nat.succ_lt_succ hjk)
            (by rw [List.getElem?_cons_succ]; exact hq))
      simp [firstBadRecipient, hhead, htail]

/-- C7: when the batch item at 0-based position `i` is the first whose
recipient does not resolve, add-many answers 404 naming that item by its
1-indexed position `i + 1`, and the collection state is returned unchanged:
nothing from the batch is inserted. -/
theorem addMany_aborts_on_missing_recipient
    (recipients : List RecipientDoc) (s : List PackageDoc)
    (packages : List PackageDoc) (i : Nat) (p : PackageDoc)
    (hp : packages[i]? = some p)
    (hbad : (recipients.find? (fun r =>
      r.rid == p.RecipientId)).isSome = false)
    (hgood : ∀ j q, j < i → packages[j]? = some q →
      (recipients.find? (fun r => r.rid == q.RecipientId)).isSome = true) :
    addManyPackages recipients s packages = .recipientNotFound (i + 1) s := by
  unfold addManyPackages
  rw [firstBadRecipient_eq_some recipients packages i p hp hbad hgood]

/-- Concrete batch whose second item references a missing recipient. -/
def sampleBadBatch : List PackageDoc :=
  [{ Status := "pending", SenderName := "Alice", RecipientId := 7 },
   { Status := "pending", SenderName := "Mallory", RecipientId := 99 }]

theorem addMany_aborts_on_missing_recipient_witness :
    addManyPackages sampleRecipients sampleState sampleBadBatch =
      .recipientNotFound 2 sampleState :=
  addMany_aborts_on_missing_recipient sampleRecipients sampleState
    sampleBadBatch 1 (sampleBadBatch.get ⟨1, by decide⟩) (by decide) (by decide)
    (fun j q hjk hq => by
      interval_cases j
      simp only [sampleBadBatch, List.getElem?_cons_zero] at hq
      obtain rfl := Option.some.inj hq
      decide)

/-- C10: an empty package batch is not rejected: the recipient loop and the
assignment loop do nothing, the bulk insert of zero items succeeds, and the
response is the success case with an empty result list and the state
unchanged; only the Recipient add-many rejects an empty input array with a
400. -/
theorem addMany_empty_batch (recipients : List RecipientDoc)
    (s : List PackageDoc) (t : List RecipientDoc) :
    addManyPackages recipients s [] = .ok [] s ∧
    addManyRecipients t [] = .invalidInput t := by
  constructor
  · show (match (none : Option Nat) with
      | some i => AddManyResult.recipientNotFound (i + 1) s
      | none => .ok (assignNumbers (nextTrackingNumber s) [])
          (s ++ assignNumbers (nextTrackingNumber s) [])) = .ok [] s
    simp [assignNumbers]
  · rfl

/-- An element of the JSON `trackingNumbers` array of the delete-many
request body: a number, or any other JSON value (which the route rejects
with `typeof num === 'number'`). -/
inductive JsonValue where
  | num (n : Nat)
  | other
  deriving Repr, DecidableEq

def JsonValue.isNumber : JsonValue → Bool
  | .num _ => true
  | .other => false

/-- Result of `POST /packages/delete-many` (src/unnamed/part_003 lines
648-690): the two 400 responses, or the 200 response carrying
`deletedCount`, `notFoundNumbers` and the new state. -/
inductive DeleteManyResult where
  | invalidInput (state : List PackageDoc)
  | nonNumeric (state : List PackageDoc)
  | ok (deletedCount : Nat) (notFoundNumbers : List Nat)
      (state : List PackageDoc)
  deriving Repr, DecidableEq

/-- The match predicate of `find(TrackingNumber $in trackingNumbers)` and
of the `deleteMany` with the same query. -/
def matchesSome (nums : List Nat) (p : PackageDoc) : Bool :=
  nums.any (fun n => p.TrackingNumber == some n)

/-- Route `POST /packages/delete-many`: 400 on an empty array, 400 when some
element is not a number; otherwise find the existing packages, compute
`notFoundNumbers` as the input numbers whose TrackingNumber was not among
the found documents, delete every matching document, and report the
deleted count (documents removed by `deleteMany`) with the not-found list.
`existingNumbers` is the JS `existingPackages.map(p => p.TrackingNumber)`;
a matched document necessarily carries the field, so `filterMap` collects
exactly those values. -/
def deleteManyPackages (s : List PackageDoc)
    (trackingNumbers : List JsonValue) : DeleteManyResult :=
  if trackingNumbers.length == 0 then .invalidInput s
  else if !(trackingNumbers.all JsonValue.isNumber) then .nonNumeric s
  else
    let nums := trackingNumbers.filterMap (fun v =>
      match v with | .num n => some n | .other => none)
    let existingPackages := s.filter (matchesSome nums)
    let existingNumbers := existingPackages.filterMap PackageDoc.TrackingNumber
    let notFoundNumbers := nums.filter (fun n => !(existingNumbers.contains n))
    .ok existingPackages.length notFoundNumbers
      (s.filter (fun p => !(matchesSome nums p)))

theorem contains_existingNumbers (s : List PackageDoc) (nums : List Nat)
    (n : Nat) (hn : n ∈ nums) :
    ((s.filter (matchesSome nums)).filterMap
      PackageDoc.TrackingNumber).contains n =
    s.any (fun p => p.TrackingNumber == some n) := by
  induction s with
  | nil => simp
  | cons p ps ih =>
    by_cases hm : matchesSome nums p = true
    · rw [List.filter_cons_of_pos hm]
      cases hpt : p.TrackingNumber with
      | none =>
        simp only [List.filterMap_cons, hpt, List.any_cons]
        rw [ih]
        simp [hpt]
      | some a =>
        simp only [List.filterMap_cons, hpt, List.any_cons]
        by_cases hna : a = n
        · subst hna
          simp [hpt]
        · have h1 : (n == a) = false := by
            simp only [beq_eq_false_iff_ne, ne_eq]
            exact fun h => hna h.symm
          have h2 : ((some a : Option Nat) == some n) = false := by
            simp only [beq_eq_false_iff_ne, ne_eq, Option.some.injEq]
            exact hna
          simp only [List.contains_cons, h1, Bool.false_or]
          rw [ih]
          simp [List.any_cons, hpt, h2]
    · rw [List.filter_cons_of_neg hm]
      rw [ih]
      have hfalse : (p.TrackingNumber == some n) = false := by
        by_contra hcon
        rw [Bool.not_eq_false, beq_iff_eq] at hcon
        refine hm ?_
        simp only [matchesSome, List.any_eq_true]
        exact ⟨n, hn, by rw [hcon]; simp⟩
      simp [List.any_cons, hfalse]

theorem length_filter_or_mem (l : List Nat) (a : Nat) (g : Nat → Bool)
    (hnd : l.Nodup) (ha : a ∈ l) (hg : g a = false) :
    (l.filter (fun n => (a == n) || g n)).length =
      (l.filter g).length + 1 := by
  induction l with
  | nil => simp at ha
  | cons x tl ih =>
    rcases List.nodup_cons.mp hnd with ⟨hx, htl⟩
    by_cases hxa : x = a
    · subst hxa
      rw [List.filter_cons_of_pos (by simp), List.filter_cons_of_neg (by simp [hg])]
      have hcongr : tl.filter (fun n => (x == n) || g n) = tl.filter g := by
        apply List.filter_congr
        intro n hn
        have : x ≠ n := fun h => hx (h ▸ hn)
        simp [this]
      rw [hcongr]
      simp
    · have ha' : a ∈ tl := by
        cases List.mem_cons.mp ha with
        | inl h => exact absurd h.symm hxa
        | inr h => exact h
      have hax : (a == x) = false := by
        simp [Ne.symm]
        exact fun h => hxa h.symm
      by_cases hgx : g x = true
      · rw [List.filter_cons_of_pos (by simp [hgx]), List.filter_cons_of_pos hgx]
        simp only [List.length_cons]
        rw [ih htl ha']
      · rw [List.filter_cons_of_neg (by simp [hax, hgx]),
          List.filter_cons_of_neg (by simp [hgx])]
        exact ih htl ha'

theorem deletedCount_eq (s : List PackageDoc) (nums : List Nat)
    (hnodup : nums.Nodup)
    (huniq : (s.filterMap PackageDoc.TrackingNumber).Nodup) :
    (s.filter (matchesSome nums)).length =
      (nums.filter (fun n =>
        s.any (fun p => p.TrackingNumber == some n))).length := by
  induction s with
  | nil => simp
  | cons p ps ih =>
    have huniq' : (ps.filterMap PackageDoc.TrackingNumber).Nodup := by
      cases hpt : p.TrackingNumber with
      | none => simpa [List.filterMap_cons, hpt] using huniq
      | some a =>
        simp only [List.filterMap_cons, hpt] at huniq
        exact (List.nodup_cons.mp huniq).2
    by_cases hm : matchesSome nums p = true
    · obtain ⟨a, hamem, hpa⟩ : ∃ a ∈ nums, (p.TrackingNumber == some a) = true := by
        simpa [matchesSome, List.any_eq_true] using hm
      have hpa' : p.TrackingNumber = some a := by
        cases hpt : p.TrackingNumber with
        | none => rw [hpt] at hpa; simp at hpa
        | some b =>
          rw [hpt] at hpa
          simp only [beq_iff_eq, Option.some.injEq] at hpa
          rw [hpa]
      have hnotin : a ∉ ps.filterMap PackageDoc.TrackingNumber := by
        simp only [List.filterMap_cons, hpa'] at huniq
        exact (List.nodup_cons.mp huniq).1
      have hga : ps.any (fun q => q.TrackingNumber == some a) = false := by
        by_contra hcon
        rw [Bool.not_eq_false, List.any_eq_true] at hcon
        obtain ⟨q, hqmem, hq⟩ := hcon
        have hq' : q.TrackingNumber = some a := by
          cases hqt : q.TrackingNumber with
          | none => rw [hqt] at hq; simp at hq
          | some b =>
            rw [hqt] at hq
            simp only [beq_iff_eq, Option.some.injEq] at hq
            rw [hq]
        exact hnotin (List.mem_filterMap.mpr ⟨q, hqmem, hq'⟩)
      have hpred : nums.filter (fun n =>
          (p :: ps).any (fun q => q.TrackingNumber == some n)) =
          nums.filter (fun n => (a == n) ||
            ps.any (fun q => q.TrackingNumber == some n)) := by
        apply List.filter_congr
        intro n _
        simp [List.any_cons, hpa']
      rw [List.filter_cons_of_pos hm, hpred,
        length_filter_or_mem nums a _ hnodup hamem hga]
      simp only [List.length_cons]
      rw [ih huniq']
    · have hnone : ∀ n ∈ nums, (p.TrackingNumber == some n) = false := by
        intro n hn
        by_contra hcon
        rw [Bool.not_eq_false] at hcon
        exact hm (by
          simp only [matchesSome, List.any_eq_true]
          exact ⟨n, hn, hcon⟩)
      have hpred : nums.filter (fun n =>
          (p :: ps).any (fun q => q.TrackingNumber == some n)) =
          nums.filter (fun n =>
            ps.any (fun q => q.TrackingNumber == some n)) := by
        apply List.filter_congr
        intro n hn
        simp [List.any_cons, hnone n hn]
      rw [List.filter_cons_of_neg hm, hpred, ih huniq']

/-- C3: a delete-many call on a non-empty all-numeric key array (with
distinct keys, against a collection honouring the TrackingNumber
uniqueness constraint) reports `deletedCount` equal to the number of input
keys present in the collection, `notFoundNumbers` equal to exactly the
input keys that are absent, the two counts partition the input with no
overlap, every matching document is removed from the resulting state, and
absent keys produce no error response. -/
theorem deleteMany_partitions (s : List PackageDoc) (nums : List Nat)
    (hne : nums ≠ [])
    (hnodup : nums.Nodup)
    (huniq : (s.filterMap PackageDoc.TrackingNumber).Nodup) :
    deleteManyPackages s (nums.map JsonValue.num) =
      .ok ((nums.filter (fun n =>
            s.any (fun p => p.TrackingNumber == some n))).length)
          (nums.filter (fun n =>
            !(s.any (fun p => p.TrackingNumber == some n))))
          (s.filter (fun p => !(matchesSome nums p))) ∧
    (nums.filter (fun n =>
        s.any (fun p => p.TrackingNumber == some n))).length +
      (nums.filter (fun n =>
        !(s.any (fun p => p.TrackingNumber == some n)))).length =
      nums.length ∧
    (∀ n ∈ nums.filter (fun n =>
        !(s.any (fun p => p.TrackingNumber == some n))),
      s.any (fun p => p.TrackingNumber == some n) = false) ∧
    (∀ p ∈ s.filter (fun p => !(matchesSome nums p)),
      matchesSome nums p = false) := by
  have hlen : ((nums.map JsonValue.num).length == 0) = false := by
    simp only [List.length_map, beq_eq_false_iff_ne, ne_eq]
    intro h
    exact hne (List.eq_nil_of_length_eq_zero h)
  have hall : (nums.map JsonValue.num).all JsonValue.isNumber = true := by
    simp [List.all_map, JsonValue.isNumber, Function.comp]
  have hback : (nums.map JsonValue.num).filterMap (fun v =>
      match v with | .num n => some n | .other => none) = nums := by
    rw [List.filterMap_map]
    have hcomp : ((fun v => match v with
        | JsonValue.num n => some n
        | JsonValue.other => none) ∘ JsonValue.num) = some := by
      funext n
      rfl
    rw [hcomp, List.filterMap_some]
  refine ⟨?_, ?_, ?_, ?_⟩
  · unfold deleteManyPackages
    rw [hlen, hall]
    simp only [Bool.not_true, Bool.false_eq_true, if_false, hback]
    rw [deletedCount_eq s nums hnodup huniq]
    have hnf : nums.filter (fun n =>
        !(((s.filter (matchesSome nums)).filterMap
          PackageDoc.TrackingNumber).contains n)) =
        nums.filter (fun n =>
          !(s.any (fun p => p.TrackingNumber == some n))) := by
      apply List.filter_congr
      intro n hn
      rw [contains_existingNumbers s nums n hn]
    rw [hnf]
  · have := List.length_eq_length_filter_add
      (l := nums) (fun n => s.any (fun p => p.TrackingNumber == some n))
    omega
  · intro n hn
    have := List.of_mem_filter hn
    simpa using this
  · intro p hp
    have := List.of_mem_filter hp
    simpa using this

/-- Concrete collection with tracking numbers 1 and 2, used by the
delete-many witness. -/
def sampleDeleteState : List PackageDoc :=
  [{ TrackingNumber := some 1, Status := "pending", SenderName := "Ann",
     RecipientId := 7 },
   { TrackingNumber := some 2, Status := "delivered", SenderName := "Ben",
     RecipientId := 7 }]

theorem deleteMany_partitions_witness :
    deleteManyPackages sampleDeleteState
        ([1, 3].map JsonValue.num) =
      .ok (([1, 3].filter (fun n => sampleDeleteState.any
            (fun p => p.TrackingNumber == some n))).length)
          ([1, 3].filter (fun n => !(sampleDeleteState.any
            (fun p => p.TrackingNumber == some n))))
          (sampleDeleteState.filter
            (fun p => !(matchesSome [1, 3] p))) ∧
    ([1, 3].filter (fun n => sampleDeleteState.any
        (fun p => p.TrackingNumber == some n))).length +
      ([1, 3].filter (fun n => !(sampleDeleteState.any
        (fun p => p.TrackingNumber == some n)))).length = ([1, 3] : List Nat).length ∧
    (∀ n ∈ ([1, 3] : List Nat).filter (fun n => !(sampleDeleteState.any
        (fun p => p.TrackingNumber == some n))),
      sampleDeleteState.any (fun p => p.TrackingNumber == some n) = false) ∧
    (∀ p ∈ sampleDeleteState.filter (fun p => !(matchesSome [1, 3] p)),
      matchesSome [1, 3] p = false) :=
  deleteMany_partitions sampleDeleteState [1, 3]
    (by decide) (by decide) (by decide)

/-- The fields a `$set`-style update may write (mongoose casts a plain
update object to `$set`); `none` leaves the stored field untouched. -/
structure UpdateFields where
  TrackingNumber : Option Nat := none
  Status : Option String := none
  SenderName : Option String := none
  RecipientId : Option Nat := none
  deriving Repr, DecidableEq

/-- Application of `$set`: every field named in the update object is
overwritten, every other stored field is kept. -/
def applySet (p : PackageDoc) (f : UpdateFields) : PackageDoc :=
  { TrackingNumber := match f.TrackingNumber with
      | some v => some v
      | none => p.TrackingNumber,
    Status := f.Status.getD p.Status,
    SenderName := f.SenderName.getD p.SenderName,
    RecipientId := f.RecipientId.getD p.RecipientId,
    IDProofData := p.IDProofData }

/-- Operation `findOneAndUpdate( TrackingNumber: tn , ..., new: true)`: rewrite the
first document whose TrackingNumber equals `tn` by `g`, returning the
updated document and the new collection state, or `none` when nothing
matches. -/
def findOneAndUpdateTN :
    List PackageDoc → Nat → (PackageDoc → PackageDoc) →
    Option (PackageDoc × List PackageDoc)
  | [], _, _ => none
  | p :: ps, tn, g =>
    if p.TrackingNumber == some tn then some (g p, g p :: ps)
    else (findOneAndUpdateTN ps tn g).map (fun r => (r.1, p :: r.2))

/-- Result of the single-document update routes. -/
inductive UpdateResult where
  | notFound (state : List PackageDoc)
  | ok (updated : PackageDoc) (state : List PackageDoc)
  deriving Repr, DecidableEq

/-- Route `PUT /packages/:trackingNumber` (src/Package_Track/Package_Tracking.js
lines 282-305, identically src/unnamed/part_003 lines 355-378):
`findOneAndUpdate` with `overwrite: true` replaces the entire matched
document with the request body. -/
def replacePackage (s : List PackageDoc) (tn : Nat)
    (body : PackageDoc) : UpdateResult :=
  match findOneAndUpdateTN s tn (fun _ => body) with
  | none => .notFound s
  | some (p, s') => .ok p s'

/-- Route `PATCH /packages/:trackingNumber` (src/unnamed/part_003 lines 411-432):
`findOneAndUpdate` with the update object `Status: req.body.Status`, a
`$set` of the single Status field. -/
def patchStatus (s : List PackageDoc) (tn : Nat) (st : String) :
    UpdateResult :=
  match findOneAndUpdateTN s tn (fun p => applySet p { Status := some st }) with
  | none => .notFound s
  | some (p, s') => .ok p s'

/-- One element of the `updates` array of `POST /packages/update-many`. -/
structure UpdateItem where
  TrackingNumber : Nat
  fieldsToUpdate : UpdateFields
  deriving Repr, DecidableEq

/-- Result of `POST /packages/update-many` (src/unnamed/part_003 lines
753-802).  `itemInvalid` is the mid-loop 400 issued for a falsy
`TrackingNumber`; its state keeps the updates already applied (the route
has no rollback). -/
inductive UpdateManyResult where
  | invalidInput (state : List PackageDoc)
  | itemInvalid (state : List PackageDoc)
  | ok (updatedPackages : List PackageDoc) (notFoundNumbers : List Nat)
      (state : List PackageDoc)
  deriving Repr, DecidableEq

/-- The per-item loop of update-many: attempt a `findOneAndUpdate` with
the item's `fieldsToUpdate`, collecting updated documents and not-found
numbers.  JavaScript's `!TrackingNumber` is true for the number 0, hence
the `== 0` guard. -/
def updateManyLoop :
    List PackageDoc → List UpdateItem → UpdateManyResult
  | s, [] => .ok [] [] s
  | s, u :: us =>
    if u.TrackingNumber == 0 then .itemInvalid s
    else
      match findOneAndUpdateTN s u.TrackingNumber
          (fun p => applySet p u.fieldsToUpdate) with
      | some (p, s') =>
        match updateManyLoop s' us with
        | .ok ups nfs s'' => .ok (p :: ups) nfs s''
        | r => r
      | none =>
        match updateManyLoop s us with
        | .ok ups nfs s'' => .ok ups (u.TrackingNumber :: nfs) s''
        | r => r

/-- Route `POST /packages/update-many`: 400 on an empty `updates` array,
otherwise the sequential per-item loop. -/
def updateManyPackages (s : List PackageDoc)
    (updates : List UpdateItem) : UpdateManyResult :=
  if updates.length == 0 then .invalidInput s
  else updateManyLoop s updates

theorem findOneAndUpdateTN_ok (s : List PackageDoc) (tn : Nat)
    (g : PackageDoc → PackageDoc)
    (h : ∀ d : PackageDoc, d.TrackingNumber = some tn →
      (g d).TrackingNumber = some tn) :
    ∀ q s', findOneAndUpdateTN s tn g = some (q, s') →
      q.TrackingNumber = some tn := by
  induction s with
  | nil => intro q s' hq; simp [findOneAndUpdateTN] at hq
  | cons p ps ih =>
    intro q s' hq
    simp only [findOneAndUpdateTN] at hq
    by_cases hb : (p.TrackingNumber == some tn) = true
    · rw [if_pos hb] at hq
      obtain ⟨hq1, _⟩ := Prod.mk.injEq .. ▸ Option.some.inj hq
      exact hq1 ▸ h p (by simpa [beq_iff_eq] using hb)
    · rw [if_neg hb] at hq
      obtain ⟨⟨r1, r2⟩, hr, hr'⟩ := Option.map_eq_some'.mp hq
      obtain ⟨hq1, _⟩ := Prod.mk.injEq .. ▸ hr'
      exact hq1 ▸ ih r1 r2 hr

theorem findOneAndUpdateTN_const (s : List PackageDoc) (tn : Nat)
    (body : PackageDoc) :
    ∀ q s', findOneAndUpdateTN s tn (fun _ => body) = some (q, s') →
      q = body := by
  induction s with
  | nil => intro q s' hq; simp [findOneAndUpdateTN] at hq
  | cons p ps ih =>
    intro q s' hq
    simp only [findOneAndUpdateTN] at hq
    by_cases hb : (p.TrackingNumber == some tn) = true
    · rw [if_pos hb] at hq
      obtain ⟨hq1, _⟩ := Prod.mk.injEq .. ▸ Option.some.inj hq
      exact hq1 ▸ rfl
    · rw [if_neg hb] at hq
      obtain ⟨⟨r1, r2⟩, hr, hr'⟩ := Option.map_eq_some'.mp hq
      obtain ⟨hq1, _⟩ := Prod.mk.injEq .. ▸ hr'
      exact hq1 ▸ ih r1 r2 hr

theorem applySet_trackingNumber_of_none (p : PackageDoc)
    (f : UpdateFields) (hf : f.TrackingNumber = none) :
    (applySet p f).TrackingNumber = p.TrackingNumber := by
  simp [applySet, hf]

/-- C4 (amended): the status patch always preserves the matched document's
TrackingNumber (it equals `some tn`, the value the filter matched, both
before and after); an update-many `$set` step preserves it exactly when
the item's `fieldsToUpdate` does not name TrackingNumber; the full replace
stores the request body wholesale, so the TrackingNumber afterwards is the
body's TrackingNumber field — preserved only when the body repeats the
matched number, removed or changed otherwise. -/
theorem trackingNumber_preserved_unless_written
    (s : List PackageDoc) (tn : Nat) (st : String) (f : UpdateFields)
    (body : PackageDoc) (p q r : PackageDoc)
    (s₁ s₂ s₃ : List PackageDoc) :
    (patchStatus s tn st = .ok p s₁ → p.TrackingNumber = some tn) ∧
    (f.TrackingNumber = none →
      findOneAndUpdateTN s tn (fun d => applySet d f) = some (q, s₂) →
      q.TrackingNumber = some tn) ∧
    (replacePackage s tn body = .ok r s₃ →
      r.TrackingNumber = body.TrackingNumber) := by
  refine ⟨?_, ?_, ?_⟩
  · intro hp
    unfold patchStatus at hp
    cases hfind : findOneAndUpdateTN s tn
        (fun d => applySet d { Status := some st }) with
    | none => rw [hfind] at hp; exact absurd hp (by simp)
    | some pr =>
      rw [hfind] at hp
      obtain ⟨q', s'⟩ := pr
      simp only [UpdateResult.ok.injEq] at hp
      obtain ⟨hq, hs⟩ := hp
      subst hq hs
      exact findOneAndUpdateTN_ok s tn _
        (fun d hd => by rw [applySet_trackingNumber_of_none d _ rfl]; exact hd)
        q' s' hfind
  · intro hf hq
    exact findOneAndUpdateTN_ok s tn _
      (fun d hd => by rw [applySet_trackingNumber_of_none d f hf]; exact hd)
      q s₂ hq
  · intro hr
    unfold replacePackage at hr
    cases hfind : findOneAndUpdateTN s tn (fun _ => body) with
    | none => rw [hfind] at hr; exact absurd hr (by simp)
    | some pr =>
      rw [hfind] at hr
      obtain ⟨q', s'⟩ := pr
      simp only [UpdateResult.ok.injEq] at hr
      obtain ⟨hq, hs⟩ := hr
      subst hq hs
      rw [findOneAndUpdateTN_const s tn body q' s' hfind]

/-- Concrete stored document with TrackingNumber 5, used for C4. -/
def c4Doc : PackageDoc :=
  { TrackingNumber := some 5, Status := "pending", SenderName := "Ann",
    RecipientId := 7 }

/-- Concrete update-many item that writes TrackingNumber 99 onto the
document with TrackingNumber 5. -/
def c4Item : UpdateItem :=
  { TrackingNumber := 5, fieldsToUpdate := { TrackingNumber := some 99 } }

/-- C4 (counterexample): update-many with `fieldsToUpdate` naming
TrackingNumber succeeds and changes the stored TrackingNumber from 5 to
99, so the claim that every successful update preserves the
TrackingNumber is false on the code. -/
theorem trackingNumber_mutable_counterexample :
    updateManyPackages [c4Doc] [c4Item] =
      .ok [{ c4Doc with TrackingNumber := some 99 }] []
        [{ c4Doc with TrackingNumber := some 99 }] ∧
    ({ c4Doc with TrackingNumber := some 99 }).TrackingNumber ≠
      c4Doc.TrackingNumber := by
  constructor
  · rfl
  · decide

/-- Concrete `$set` update not naming TrackingNumber, and replacement
body carrying the matched number, used by the C4 witness. -/
def c4Fields : UpdateFields := { SenderName := some "Zoe" }

/-- Concrete replacement body for the C4 witness. -/
def c4Body : PackageDoc :=
  { TrackingNumber := some 5, Status := "delivered", SenderName := "Ann",
    RecipientId := 7 }

theorem trackingNumber_preserved_unless_written_witness :
    ({ c4Doc with Status := "delivered" } : PackageDoc).TrackingNumber = some 5 ∧
    ({ c4Doc with SenderName := "Zoe" } : PackageDoc).TrackingNumber = some 5 ∧
    c4Body.TrackingNumber = c4Body.TrackingNumber := by
  obtain ⟨h1, h2, h3⟩ := trackingNumber_preserved_unless_written
    [c4Doc] 5 "delivered" c4Fields c4Body
    { c4Doc with Status := "delivered" }
    { c4Doc with SenderName := "Zoe" }
    c4Body
    [{ c4Doc with Status := "delivered" }]
    [{ c4Doc with SenderName := "Zoe" }]
    [c4Body]
  exact ⟨h1 (by decide), h2 (by decide) (by decide), h3 (by decide)⟩

/-- Mongoose `populate(RecipientId)`: resolve the reference against the Recipient
collection; a dangling reference populates to `null`. -/
def populateRecipient (recipients : List RecipientDoc)
    (p : PackageDoc) : Option RecipientDoc :=
  recipients.find? (fun r => r.rid == p.RecipientId)

/-- Result of `GET /packages/:trackingNumber` in src/unnamed/part_003
(lines 296-325): the found document together with its populated recipient
and the base64-encoded ID-proof bytes, or the 404. -/
inductive GetResult where
  | notFound
  | found (pkg : PackageDoc) (recipient : Option RecipientDoc)
      (idProofData : List Nat)
  deriving Repr, DecidableEq

/-- Result of `GET /packages/:trackingNumber` in
src/Package_Track/Package_Tracking.js (lines 234-252): the populated
document alone, or the 404. -/
inductive GetSimpleResult where
  | notFound
  | found (pkg : PackageDoc) (recipient : Option RecipientDoc)
  deriving Repr, DecidableEq

/-- Mongoose hydration of a query result: schema defaults are applied to
paths missing from the stored document, and the part_010 schema defaults
`ID_proof.data` to `Buffer.alloc(0)`.  A document returned by `findOne`
therefore always presents a (possibly empty) Buffer at `ID_proof.data`,
even after delete_ID_Proof's `$unset` removed the stored field. -/
def hydrate (p : PackageDoc) : PackageDoc :=
  { p with IDProofData := some (p.IDProofData.getD []) }

/-- The part_003 variant: `findOne` (hydrating the stored document) with
populate, then `if (!pkg || !pkg.ID_proof.data) return 404`.  The inner
match is the truthiness test on `pkg.ID_proof.data`: a Buffer is truthy in
JavaScript even when empty, and hydration always supplies one, so the
`none` arm is unreachable for a found package. -/
def getPackageA (recipients : List RecipientDoc) (s : List PackageDoc)
    (tn : Nat) : GetResult :=
  match (s.find? (fun p => p.TrackingNumber == some tn)).map hydrate with
  | none => .notFound
  | some pkg =>
    match pkg.IDProofData with
    | none => .notFound
    | some bytes => .found pkg (populateRecipient recipients pkg) bytes

/-- The src/Package_Track variant: `findOne` with populate, 404 exactly
when no document matches. -/
def getPackageB (recipients : List RecipientDoc) (s : List PackageDoc)
    (tn : Nat) : GetSimpleResult :=
  match s.find? (fun p => p.TrackingNumber == some tn) with
  | none => .notFound
  | some pkg => .found pkg (populateRecipient recipients pkg)

/-- C8: for every tracking number, both GET variants answer NotFound
exactly when no package with that tracking number exists, and otherwise
return the record with its Recipient relation resolved — existence of the
package, not of its attachment data, decides the outcome.  In the
part_003 variant the `!pkg.ID_proof.data` disjunct never fires for a
found package, because hydration applies the schema default
`Buffer.alloc(0)` (truthy) wherever the stored data field is absent; the
response then carries the hydrated document and its (possibly empty)
ID-proof bytes. -/
theorem get_decided_by_existence
    (recipients : List RecipientDoc) (s : List PackageDoc) (tn : Nat) :
    (getPackageA recipients s tn = .notFound ↔
      s.find? (fun p => p.TrackingNumber == some tn) = none) ∧
    (∀ pkg, s.find? (fun p => p.TrackingNumber == some tn) = some pkg →
      getPackageA recipients s tn =
        .found (hydrate pkg)
          (populateRecipient recipients (hydrate pkg))
          (pkg.IDProofData.getD [])) ∧
    (getPackageB recipients s tn = .notFound ↔
      s.find? (fun p => p.TrackingNumber == some tn) = none) ∧
    (∀ pkg, s.find? (fun p => p.TrackingNumber == some tn) = some pkg →
      getPackageB recipients s tn =
        .found pkg (populateRecipient recipients pkg)) := by
  refine ⟨?_, ?_, ?_, ?_⟩
  · unfold getPackageA
    cases hf : s.find? (fun p => p.TrackingNumber == some tn) with
    | none => simp
    | some pkg => simp [hydrate]
  · intro pkg hf
    unfold getPackageA
    rw [hf]
    rfl
  · unfold getPackageB
    cases hf : s.find? (fun p => p.TrackingNumber == some tn) with
    | none => simp
    | some pkg => simp
  · intro pkg hf
    unfold getPackageB
    rw [hf]

/-- Concrete stored package whose ID-proof data field is absent from the
stored document (the state delete_ID_Proof's `$unset` leaves behind);
hydration restores the default empty buffer on read. -/
def c8DocNoData : PackageDoc :=
  { TrackingNumber := some 1, Status := "pending", SenderName := "Ann",
    RecipientId := 7, IDProofData := none }

theorem get_decided_by_existence_witness :
    getPackageA sampleRecipients [c8DocNoData] 1 =
      .found (hydrate c8DocNoData)
        (populateRecipient sampleRecipients (hydrate c8DocNoData)) [] ∧
    getPackageB sampleRecipients [c8DocNoData] 1 =
      .found c8DocNoData
        (populateRecipient sampleRecipients c8DocNoData) := by
  obtain ⟨_, h2, _, h4⟩ :=
    get_decided_by_existence sampleRecipients [c8DocNoData] 1
  exact ⟨h2 c8DocNoData (by decide), h4 c8DocNoData (by decide)⟩

/-- The fields a recipient PATCH may supply. -/
structure RecipUpdateFields where
  RecipientContact : Option Nat := none
  RecipientName : Option String := none
  deriving Repr, DecidableEq

/-- Application of `$set` for recipient updates. -/
def applyRecipSet (r : RecipientDoc) (f : RecipUpdateFields) : RecipientDoc :=
  { rid := r.rid,
    RecipientName := f.RecipientName.getD r.RecipientName,
    RecipientContact := f.RecipientContact.getD r.RecipientContact }

/-- Operation `findOneAndUpdate( RecipientContact: c , ..., new: true)` on the
recipient collection. -/
def findOneAndUpdateContact :
    List RecipientDoc → Nat → (RecipientDoc → RecipientDoc) →
    Option (RecipientDoc × List RecipientDoc)
  | [], _, _ => none
  | r :: rs, c, g =>
    if r.RecipientContact == c then some (g r, g r :: rs)
    else (findOneAndUpdateContact rs c g).map (fun x => (x.1, r :: x.2))

/-- Result of `PATCH /recipients/:RecipientContact`
(src/Package_Track/recipientRoutes.js lines 261-289). -/
inductive RecipPatchResult where
  | conflict (state : List RecipientDoc)
  | notFound (state : List RecipientDoc)
  | ok (updated : RecipientDoc) (state : List RecipientDoc)
  deriving Repr, DecidableEq

/-- The `findOneAndUpdate` tail of the recipient PATCH route. -/
def patchRecipientUpdate (s : List RecipientDoc) (contact : Nat)
    (u : RecipUpdateFields) : RecipPatchResult :=
  match findOneAndUpdateContact s contact (fun r => applyRecipSet r u) with
  | none => .notFound s
  | some (r, s') => .ok r s'

/-- Route `PATCH /recipients/:RecipientContact`: when the update supplies a
truthy `RecipientContact` (JavaScript's `if (updates.RecipientContact)`,
false for 0), and a recipient with that number already exists, and the new
number differs from the path parameter, answer 400 before touching the
collection; otherwise run the `findOneAndUpdate`. -/
def patchRecipient (s : List RecipientDoc) (contact : Nat)
    (u : RecipUpdateFields) : RecipPatchResult :=
  match u.RecipientContact with
  | some newC =>
    if newC != 0 &&
        (s.find? (fun r => r.RecipientContact == newC)).isSome &&
        newC != contact then
      .conflict s
    else patchRecipientUpdate s contact u
  | none => patchRecipientUpdate s contact u

/-- C9: a recipient PATCH whose new contact number equals the contact of
a different existing recipient (stored contacts being nonzero, as the
10-15-digit schema validation guarantees) is rejected with the 400
conflict and the collection state is returned unchanged; and a PATCH that
supplies the recipient's own current contact number is never rejected by
this check — it proceeds to the plain update. -/
theorem patchRecipient_rejects_contact_collision
    (s : List RecipientDoc) (contact : Nat) (u : RecipUpdateFields)
    (newC : Nat) (r2 : RecipientDoc)
    (hnew : u.RecipientContact = some newC)
    (hvalid : ∀ r ∈ s, r.RecipientContact ≠ 0)
    (hr2 : r2 ∈ s) (hc : r2.RecipientContact = newC)
    (hdiff : newC ≠ contact) :
    patchRecipient s contact u = .conflict s ∧
    (∀ u' : RecipUpdateFields, u'.RecipientContact = some contact →
      patchRecipient s contact u' = patchRecipientUpdate s contact u') := by
  constructor
  · unfold patchRecipient
    rw [hnew]
    have h0 : (newC != 0) = true := by
      have := hvalid r2 hr2
      rw [hc] at this
      simpa using this
    have hex : (s.find? (fun r => r.RecipientContact == newC)).isSome = true := by
      rw [List.find?_isSome]
      exact ⟨r2, hr2, by simp [hc]⟩
    have hne : (newC != contact) = true := by simpa using hdiff
    show (if (newC != 0 &&
        (s.find? (fun r => r.RecipientContact == newC)).isSome &&
        newC != contact) = true then
      RecipPatchResult.conflict s
    else patchRecipientUpdate s contact u) = RecipPatchResult.conflict s
    rw [h0, hex, hne]
    rfl
  · intro u' hu'
    unfold patchRecipient
    rw [hu']
    show (if (contact != 0 &&
        (s.find? (fun r => r.RecipientContact == contact)).isSome &&
        contact != contact) = true then
      RecipPatchResult.conflict s
    else patchRecipientUpdate s contact u') = patchRecipientUpdate s contact u'
    have hcc : (contact != contact) = false := by simp
    rw [hcc]
    simp

/-- Second recipient, with a distinct contact number, for the C9
witness. -/
def otherRecipient : RecipientDoc :=
  { rid := 8, RecipientName := "Sam Brown", RecipientContact := 5550001111 }

/-- Two-recipient collection for the C9 witness. -/
def twoRecipients : List RecipientDoc :=
  [{ rid := 7, RecipientName := "Jane Doe", RecipientContact := 1234567890 },
   otherRecipient]

/-- PATCH payload that tries to take the other recipient's contact
number. -/
def collidingUpdate : RecipUpdateFields :=
  { RecipientContact := some 5550001111 }

theorem patchRecipient_rejects_contact_collision_witness :
    patchRecipient twoRecipients 1234567890 collidingUpdate =
      .conflict twoRecipients ∧
    (∀ u' : RecipUpdateFields, u'.RecipientContact = some 1234567890 →
      patchRecipient twoRecipients 1234567890 u' =
        patchRecipientUpdate twoRecipients 1234567890 u') :=
  patchRecipient_rejects_contact_collision twoRecipients 1234567890
    collidingUpdate 5550001111 otherRecipient
    (by decide) (by decide) (by decide) (by decide) (by decide)

/-- List `validStatuses` of the `validatePackage` middleware
(src/unnamed/part_003 line 153).  The fourth value is written with a
space. -/
def validStatuses : List String :=
  ["pending", "in-transit", "delivered", "not delivered"]

/-- Check `validStatuses.includes(Status)` — the middleware acceptance check. -/
def statusValid (st : String) : Bool :=
  validStatuses.contains st

/-- The `enum` of the Status schema path (src/unnamed/part_010 line 5),
enforced on create via `save` and on replace / status patch via
`runValidators: true`. -/
def schemaStatusEnum : List String :=
  ["pending", "in-transit", "delivered", "not delivered"]

/-- C6 (counterexample): the hyphenated value `not-delivered`, a member
of the claim's acceptance set, is rejected by the code's status
validation, while the spaced `not delivered` is accepted. -/
theorem status_enum_counterexample :
    statusValid "not-delivered" = false ∧
    statusValid "not delivered" = true := by
  constructor
  · rfl
  · rfl

/-- C6 (amended): a Status value passes validation exactly when it is one
of `pending`, `in-transit`, `delivered`, `not delivered` (the fourth
spelled with a space, not a hyphen), and the schema enum enforced on
create, replace and status patch is the same four-element set as the
middleware's. -/
theorem status_enum_characterization (st : String) :
    (statusValid st = true ↔
      st = "pending" ∨ st = "in-transit" ∨ st = "delivered" ∨
        st = "not delivered") ∧
    schemaStatusEnum.contains st = statusValid st := by
  constructor
  · unfold statusValid validStatuses
    rw [List.elem_iff]
    simp
  · rfl

/-- A candidate monetary value with at most two decimal places is
represented by its amount in cents: the JavaScript number is
`cents / 100` (so 10.25 is 1025). -/
abbrev Cents := Nat

/-- Rendering `String(v)` for such a value: JavaScript prints the shortest decimal
that round-trips — no decimal point for whole numbers, one fraction digit
when the cents are a multiple of ten, two otherwise. -/
def renderShortest (cents : Cents) : String :=
  let k := cents / 100
  let r := cents % 100
  if r == 0 then Nat.repr k
  else if r % 10 == 0 then Nat.repr k ++ "." ++ Nat.repr (r / 10)
  else if r < 10 then Nat.repr k ++ ".0" ++ Nat.repr r
  else Nat.repr k ++ "." ++ Nat.repr r

/-- Rendering `v.toFixed(2)`: exactly two fraction digits, zero-padded. -/
def renderFixed2 (cents : Cents) : String :=
  let k := cents / 100
  let r := cents % 100
  Nat.repr k ++ "." ++ (if r < 10 then "0" ++ Nat.repr r else Nat.repr r)

/-- The regex `^\d+(\.\d)?$` of the schema Price validator: one or more
digits, optionally followed by a dot and exactly one digit. -/
def priceRegexSchema (st : String) : Bool :=
  let cs := st.data
  let rest := cs.dropWhile Char.isDigit
  !(cs.takeWhile Char.isDigit).isEmpty &&
    (match rest with
     | [] => true
     | ['.', d] => d.isDigit
     | _ => false)

/-- The regex `^\d+(\.\d{1,2})?$` of the `validatePackage` middleware and
of the Package_weight validator: one or more digits, optionally followed
by a dot and one or two digits. -/
def priceRegexUpTo2 (st : String) : Bool :=
  let cs := st.data
  let rest := cs.dropWhile Char.isDigit
  !(cs.takeWhile Char.isDigit).isEmpty &&
    (match rest with
     | [] => true
     | ['.', d] => d.isDigit
     | ['.', d, e] => d.isDigit && e.isDigit
     | _ => false)

/-- The schema Price validator
(src/Package_detatils/Package_details.js lines 51-61, identically
src/unnamed/part_010 lines 51-61): `/^\d+(\.\d)?$/.test(v) && v > 0`,
the regex running against the default string rendering of the number. -/
def schemaPriceValid (cents : Cents) : Bool :=
  priceRegexSchema (renderShortest cents) && decide (0 < cents)

/-- The Price arm of the `validatePackage` middleware
(src/unnamed/part_003 lines 190-195):
`typeof Price === 'number' && /^\d+(\.\d{1,2})?$/.test(Price.toFixed(2))
&& Price > 0` (the route rejects its negation).  The `typeof` conjunct
holds by construction in this embedding. -/
def middlewarePriceValid (cents : Cents) : Bool :=
  priceRegexUpTo2 (renderFixed2 cents) && decide (0 < cents)

/-- C5: the value 10.25 — a positive price with exactly two fractional
digits — passes the middleware check exactly as the claim describes
(toFixed(2) is `10.25`, matching the at-most-2-fraction-digits pattern),
but the schema Price validator rejects it: its regex `^\d+(\.\d)?$` allows
at most one fraction digit of the rendered value `10.25`, so the save of
such a package fails mongoose validation, contradicting the claim and the
schema's own comment (`Ensure price is a positive number with 2 decimal
places`) and the symmetric Package_weight rule. -/
theorem price_two_decimals_rejected_by_schema :
    middlewarePriceValid 1025 = true ∧
    schemaPriceValid 1025 = false ∧
    renderShortest 1025 = "10.25" ∧
    renderFixed2 1025 = "10.25" ∧
    0 < 1025 := by
  refine ⟨rfl, rfl, ?_, ?_, by decide⟩
  · rfl
  · rfl

end PackageTracking
